import Mathlib

/-!
Verification of the light-bar candidate pipeline of `src/2/main.cpp`
(class `ImageProcessor`): color mask construction (`extractLightBars`,
lines 122-170) and contour classification with annotation
(`filterLightBars`, lines 173-235), shallowly embedded in Lean.

Conventions of the embedding:
* C++ `double` values (contour areas, aspect ratios) are modelled as `ℚ`;
  every comparison performed by the code (`> 50`, `< 5000`, `> 1.5`,
  `< 8.0`) is exact in double precision for the integer-derived operands
  the code feeds it, so `ℚ` is faithful for those comparisons.
* `cv::Mat` images and masks are grids: a width, a height and a total
  pixel function.  `cv::Mat::empty()` is `rows = 0 ∨ cols = 0`.
* External collaborators of the core (BGR→HSV conversion, contour
  extraction, the rectangle / text rasterizers of the drawing library)
  are parameters of the definitions, as the spec places them outside the
  core's boundary; the theorems hold for every choice of collaborator.
* The aliasing behaviour of `cv::Mat` (handles onto shared buffers) is
  modelled by a heap: a list of image buffers indexed by handles, where
  `clone` allocates a fresh buffer and drawing mutates one buffer.
-/

/-- A BGR or HSV pixel: three 8-bit channels, modelled as naturals. -/
abbrev Pixel := ℕ × ℕ × ℕ

/-- `cv::Scalar(h, s, v)` as used for the HSV range bounds. -/
structure Scalar where
  h : ℕ
  s : ℕ
  v : ℕ
deriving DecidableEq

/-- A `cv::Mat` color image: dimensions plus a total pixel function. -/
@[ext]
structure Img where
  rows : ℕ
  cols : ℕ
  px : ℕ → ℕ → Pixel

/-- `cv::Mat::empty()`: true when the image holds no pixels. -/
def Img.isEmpty (m : Img) : Bool :=
  m.rows == 0 || m.cols == 0

/-- A single-channel binary mask (`cv::Mat` of `0`/`255`), as booleans. -/
@[ext]
structure Mask where
  rows : ℕ
  cols : ℕ
  px : ℕ → ℕ → Bool

/-- `cv::Mat::empty()` for masks. -/
def Mask.isEmpty (m : Mask) : Bool :=
  m.rows == 0 || m.cols == 0

/-- `cv::Rect`: integer origin and integer extent, as in OpenCV. -/
structure Rect where
  x : ℤ
  y : ℤ
  width : ℤ
  height : ℤ
deriving DecidableEq

/-- A contour as the core consumes it from the external contour
extractor: its boundary points together with the derived quantities the
collaborator computes for it (`cv::boundingRect`, `cv::contourArea`). -/
structure Contour where
  points : List (ℤ × ℤ)
  bRect : Rect
  area : ℚ
deriving DecidableEq

/-- The error channel of the pipeline (`ImageProcessorException`),
restricted to the invalid-input failures of the two modelled stages. -/
inductive Err where
  | invalidInput (msg : String)
deriving DecidableEq

/-- The buffer heap: `cv::Mat` handles are indices into this list. -/
abbrev Heap := List Img

/-- The default image buffer used for out-of-range handle reads. -/
def dImg : Img := ⟨0, 0, fun _ _ => (0, 0, 0)⟩

/-! ## Color Mask Builder (`extractLightBars`, lines 141-161) -/

/-- `cv::Scalar red_lower1(0, 100, 100)` (line 142). -/
def red_lower1 : Scalar := ⟨0, 100, 100⟩

/-- `cv::Scalar red_upper1(10, 255, 255)` (line 143). -/
def red_upper1 : Scalar := ⟨10, 255, 255⟩

/-- `cv::Scalar red_lower2(160, 100, 100)` (line 144). -/
def red_lower2 : Scalar := ⟨160, 100, 100⟩

/-- `cv::Scalar red_upper2(180, 255, 255)` (line 145). -/
def red_upper2 : Scalar := ⟨180, 255, 255⟩

/-- `cv::Scalar blue_lower(100, 100, 100)` (line 148). -/
def blue_lower : Scalar := ⟨100, 100, 100⟩

/-- `cv::Scalar blue_upper(130, 255, 255)` (line 149). -/
def blue_upper : Scalar := ⟨130, 255, 255⟩

/-- Per-pixel test of `cv::inRange`: every channel lies inclusively
between the corresponding lower and upper bound. -/
def inRangePx (lo hi : Scalar) (p : Pixel) : Bool :=
  decide (lo.h ≤ p.1) && decide (p.1 ≤ hi.h) &&
  decide (lo.s ≤ p.2.1) && decide (p.2.1 ≤ hi.s) &&
  decide (lo.v ≤ p.2.2) && decide (p.2.2 ≤ hi.v)

/-- `cv::inRange(hsv_image, lo, hi, mask)`: the mask of pixels inside
the inclusive bounds, same dimensions as the input image. -/
def inRangeImg (hsv : Img) (lo hi : Scalar) : Mask :=
  ⟨hsv.rows, hsv.cols, fun i j => inRangePx lo hi (hsv.px i j)⟩

/-- `cv::cvtColor(image, hsv_image, COLOR_BGR2HSV)` (line 139): the
per-pixel conversion itself belongs to the external color library and
is a parameter `conv`. -/
def cvtAll (conv : Pixel → Pixel) (img : Img) : Img :=
  ⟨img.rows, img.cols, fun i j => conv (img.px i j)⟩

/-- Pointwise mask union, the core of `cv::Mat::operator|` for two
masks whose dimensions agree (dimensions taken from the left operand). -/
def orMask (a b : Mask) : Mask :=
  ⟨a.rows, a.cols, fun i j => a.px i j || b.px i j⟩

/-- Mask union as the checked operation: `cv::Mat::operator|` fails when
the operand dimensions differ, so combining mismatched masks yields
`none`. -/
def maskUnion (a b : Mask) : Option Mask :=
  if a.rows = b.rows ∧ a.cols = b.cols then some (orMask a b) else none

/-- Lines 152-161 of `extractLightBars`: the three `inRange` masks and
their unions `red_mask = red_mask1 | red_mask2`,
`final_mask = red_mask | blue_mask`, before morphological cleanup. -/
def buildColorMask (conv : Pixel → Pixel) (img : Img) : Mask :=
  let hsv_image := cvtAll conv img
  let red_mask1 := inRangeImg hsv_image red_lower1 red_upper1
  let red_mask2 := inRangeImg hsv_image red_lower2 red_upper2
  let blue_mask := inRangeImg hsv_image blue_lower blue_upper
  let red_mask := orMask red_mask1 red_mask2
  orMask red_mask blue_mask

/-! ## Mask Refiner (`extractLightBars`, lines 163-166) -/

/-- The offsets of `cv::getStructuringElement(MORPH_RECT, Size(3, 3))`
relative to its (default, central) anchor: the full 3×3 square. -/
def kernel3 : List (ℤ × ℤ) :=
  [(-1, -1), (-1, 0), (-1, 1), (0, -1), (0, 0), (0, 1), (1, -1), (1, 0), (1, 1)]

/-- Read a mask at signed coordinates, substituting the border value `b`
outside the grid (OpenCV pads erosion with foreground and dilation with
background by default, so neither shrinks the grid). -/
def Mask.borderGet (m : Mask) (b : Bool) (i j : ℤ) : Bool :=
  if 0 ≤ i ∧ i < (m.rows : ℤ) ∧ 0 ≤ j ∧ j < (m.cols : ℤ) then
    m.px i.toNat j.toNat
  else b

/-- Morphological erosion with structuring-element offsets `k`: a pixel
survives when every covered neighbor is foreground. -/
def erodeM (k : List (ℤ × ℤ)) (m : Mask) : Mask :=
  ⟨m.rows, m.cols, fun i j =>
    k.all fun d => m.borderGet true ((i : ℤ) + d.1) ((j : ℤ) + d.2)⟩

/-- Morphological dilation with structuring-element offsets `k`: a pixel
becomes foreground when some covered neighbor is foreground. -/
def dilateM (k : List (ℤ × ℤ)) (m : Mask) : Mask :=
  ⟨m.rows, m.cols, fun i j =>
    k.any fun d => m.borderGet false ((i : ℤ) + d.1) ((j : ℤ) + d.2)⟩

/-- The two morphology modes the code uses. -/
inductive MorphType where
  | MORPH_OPEN
  | MORPH_CLOSE

/-- `cv::morphologyEx`: opening is erosion followed by dilation, closing
is dilation followed by erosion (the library's documented semantics). -/
def morphologyEx (op : MorphType) (k : List (ℤ × ℤ)) (m : Mask) : Mask :=
  match op with
  | .MORPH_OPEN => dilateM k (erodeM k m)
  | .MORPH_CLOSE => erodeM k (dilateM k m)

/-- The Mask Refiner, lines 164-166: one open then one close, both with
the 3×3 rectangular structuring element. -/
def maskRefine (m : Mask) : Mask :=
  morphologyEx .MORPH_CLOSE kernel3 (morphologyEx .MORPH_OPEN kernel3 m)

/-- `ImageProcessor::extractLightBars` (lines 122-170): reject an empty
image, build the color mask, refine it, return it. -/
def extractLightBars (conv : Pixel → Pixel) (img : Img) : Except Err Mask :=
  if img.isEmpty then .error (.invalidInput "图像为空，无法提取灯条")
  else .ok (maskRefine (buildColorMask conv img))

/-! ## Candidate Classifier and Annotator (`filterLightBars`, 173-235) -/

/-- Line 201: `double aspectRatio = (double)boundingRect.height /
boundingRect.width`.  In `ℚ` a zero denominator yields `0` where IEEE
yields a non-finite value; the classifier's verdict agrees in both
models because the `width > 3` conjunct already fails at width 0. -/
def aspectRatio (c : Contour) : ℚ :=
  (c.bRect.height : ℚ) / (c.bRect.width : ℚ)

/-- Lines 204-210: the acceptance predicate `isValidLightBar`. -/
def isValidLightBar (c : Contour) : Bool :=
  decide (c.area > 50) &&
  decide (c.area < 5000) &&
  decide (aspectRatio c > 3 / 2) &&
  decide (aspectRatio c < 8) &&
  decide (c.bRect.width > 3) &&
  decide (c.bRect.height > 10)

/-- The highlight color `cv::Scalar(0, 255, 0)` (BGR green). -/
def green : Pixel := (0, 255, 0)

/-- Lines 220-221: the label text; `(int)area` truncates (areas from
`cv::contourArea` are nonnegative, so this is the floor) and the ratio's
decimal rendering is cut to four characters.  The exact decimal
formatting of `std::to_string(double)` is simplified to `ℚ`'s printer;
no claim depends on the label's characters. -/
def infoStr (c : Contour) : String :=
  "A:" ++ toString ⌊c.area⌋ ++ " R:" ++ (toString (aspectRatio c)).take 4

/-- Line 226-229: the diagnostic record printed for an accepted
candidate: rank among accepted, area, aspect ratio, bounding-box origin. -/
def candidateLog (rank : ℕ) (c : Contour) : ℕ × ℚ × ℚ × ℤ × ℤ :=
  (rank, c.area, aspectRatio c, c.bRect.x, c.bRect.y)

/-- Drawing one accepted candidate on a buffer, lines 217-224:
`cv::rectangle(vis, boundingRect, green, 2)` then `cv::putText(vis,
info, Point(x, y - 5), ..., green, ...)`.  The rasterizers `rd` (for
rectangles: buffer, rect, color, thickness) and `td` (for text: buffer,
text, origin, color) are external collaborators. -/
def annotateOne (rd : Img → Rect → Pixel → ℕ → Img)
    (td : Img → String → ℤ → ℤ → Pixel → Img) (buf : Img) (c : Contour) : Img :=
  td (rd buf c.bRect green 2) (infoStr c) c.bRect.x (c.bRect.y - 5) green

/-- Drawing all accepted candidates in order on a buffer. -/
def annotateAll (rd : Img → Rect → Pixel → ℕ → Img)
    (td : Img → String → ℤ → ℤ → Pixel → Img) (buf : Img)
    (cs : List Contour) : Img :=
  cs.foldl (annotateOne rd td) buf

/-- The contour loop of `filterLightBars` (lines 192-231): walk the
contours in order, and for each one passing `isValidLightBar` push its
bounding rectangle onto `validLightBars` and draw it on the visual
buffer. -/
def lightBarLoop (rd : Img → Rect → Pixel → ℕ → Img)
    (td : Img → String → ℤ → ℤ → Pixel → Img) :
    List Contour → List Rect → Img → List Rect × Img
  | [], acc, buf => (acc, buf)
  | c :: rest, acc, buf =>
    if isValidLightBar c then
      lightBarLoop rd td rest (acc ++ [c.bRect]) (annotateOne rd td buf c)
    else
      lightBarLoop rd td rest acc buf

/-- `ImageProcessor::filterLightBars` (lines 173-235).  `h` is the
buffer heap, `imageH` the handle of the processor's `image`.  An empty
binary image is rejected (lines 175-178); otherwise `visualResult =
image.clone()` allocates a fresh buffer (line 181), the contour loop
collects `validLightBars` while drawing on that buffer, and the handle
of the annotated copy is returned with the accepted rectangles.  The
contours are the external extractor's output for `binaryImage`. -/
def filterLightBars (rd : Img → Rect → Pixel → ℕ → Img)
    (td : Img → String → ℤ → ℤ → Pixel → Img) (h : Heap) (imageH : ℕ)
    (binaryImage : Mask) (contours : List Contour) :
    Except Err (Heap × ℕ × List Rect) :=
  if binaryImage.isEmpty then .error (.invalidInput "二值化图像为空")
  else
    let h1 := h ++ [h.getD imageH dImg]
    let visH := h.length
    let r := lightBarLoop rd td contours [] (h1.getD visH dImg)
    .ok (h1.set visH r.2, visH, r.1)

/-- The pipeline as `main` runs it (lines 286-291): extract the light
bar mask once, then filter once; `fc` is the external contour extractor
(`cv::findContours`).  Any stage failure aborts the run with no partial
result. -/
def runPipeline (conv : Pixel → Pixel) (rd : Img → Rect → Pixel → ℕ → Img)
    (td : Img → String → ℤ → ℤ → Pixel → Img) (fc : Mask → List Contour)
    (h : Heap) (imageH : ℕ) : Except Err (Mask × Heap × ℕ × List Rect) := do
  let lightBarMask ← extractLightBars conv (h.getD imageH dImg)
  let r ← filterLightBars rd td h imageH lightBarMask (fc lightBarMask)
  pure (lightBarMask, r.1, r.2.1, r.2.2)

/-! ## Helper lemmas -/

/-- The contour loop is the stable filter-and-annotate it looks like:
its rectangle list appends the bounding boxes of the accepted contours
in input order, and its buffer is the fold of the per-candidate drawing
over the accepted contours. -/
theorem lightBarLoop_spec (rd : Img → Rect → Pixel → ℕ → Img)
    (td : Img → String → ℤ → ℤ → Pixel → Img) (cs : List Contour) :
    ∀ (acc : List Rect) (buf : Img),
      lightBarLoop rd td cs acc buf =
        (acc ++ (cs.filter fun c => isValidLightBar c).map fun c => c.bRect,
          annotateAll rd td buf (cs.filter fun c => isValidLightBar c)) := by
  induction cs with
  | nil => intro acc buf; simp [lightBarLoop, annotateAll]
  | cons c rest ih =>
    intro acc buf
    by_cases hv : isValidLightBar c = true
    · rw [lightBarLoop, if_pos hv, ih]
      simp [List.filter_cons, hv, annotateAll, List.append_assoc]
    · rw [lightBarLoop, if_neg hv, ih]
      simp [List.filter_cons, hv]

/-- Reading the freshly appended buffer of a clone. -/
theorem heap_clone_get (h : Heap) (x : Img) :
    (h ++ [x]).getD h.length dImg = x := by
  simp [List.getD_eq_getElem?_getD, List.getElem?_concat_length]

/-- Writing the cloned buffer leaves every original buffer unchanged. -/
theorem heap_clone_set_preserves (h : Heap) (x v : Img) (i : ℕ)
    (hi : i < h.length) :
    ((h ++ [x]).set h.length v).getD i dImg = h.getD i dImg := by
  rw [List.getD_eq_getElem?_getD, List.getD_eq_getElem?_getD,
    List.getElem?_set_ne (by omega), List.getElem?_append_left hi]

/-- Reading back the buffer written at the cloned handle. -/
theorem heap_clone_set_get (h : Heap) (x v : Img) :
    ((h ++ [x]).set h.length v).getD h.length dImg = v := by
  rw [List.getD_eq_getElem?_getD, List.getElem?_set_eq_of_lt]
  · rfl
  · simp

/-! ## Claim theorems -/

/-- C1: the classifier accepts a contour iff `50 < area < 5000`,
`1.5 < height/width < 8.0`, `width > 3` and `height > 10`, all bounds
strict; in particular area exactly 50 or 5000 and aspect ratio exactly
1.5 or 8.0 are rejected, while area 51 or 4999 and aspect ratio 1.6 or
7.9 (other criteria satisfied) are accepted. -/
theorem classifier_accepts_iff_strict_bounds :
    (∀ c : Contour, isValidLightBar c = true ↔
      (50 < c.area ∧ c.area < 5000 ∧ 3 / 2 < aspectRatio c ∧
        aspectRatio c < 8 ∧ 3 < c.bRect.width ∧ 10 < c.bRect.height)) ∧
    isValidLightBar ⟨[], ⟨0, 0, 10, 20⟩, 50⟩ = false ∧
    isValidLightBar ⟨[], ⟨0, 0, 10, 20⟩, 5000⟩ = false ∧
    isValidLightBar ⟨[], ⟨0, 0, 10, 15⟩, 100⟩ = false ∧
    isValidLightBar ⟨[], ⟨0, 0, 10, 80⟩, 100⟩ = false ∧
    isValidLightBar ⟨[], ⟨0, 0, 10, 20⟩, 51⟩ = true ∧
    isValidLightBar ⟨[], ⟨0, 0, 10, 20⟩, 4999⟩ = true ∧
    isValidLightBar ⟨[], ⟨0, 0, 10, 16⟩, 100⟩ = true ∧
    isValidLightBar ⟨[], ⟨0, 0, 10, 79⟩, 100⟩ = true := by
  refine ⟨fun c => by simp [isValidLightBar, and_assoc], ?_, ?_, ?_, ?_,
    ?_, ?_, ?_, ?_⟩ <;>
    simp [isValidLightBar, aspectRatio] <;> norm_num

/-- C9: the default HSV sub-ranges are red hue 0–10, red hue 160–180,
blue hue 100–130, each with saturation 100–255 and value 100–255, all
bounds inclusive; a pixel is foreground in a sub-mask iff each of its
H, S, V components lies within the corresponding inclusive bounds. -/
theorem hsv_ranges_inclusive :
    ∀ (hsv : Img) (i j : ℕ),
      ((inRangeImg hsv red_lower1 red_upper1).px i j = true ↔
        (0 ≤ (hsv.px i j).1 ∧ (hsv.px i j).1 ≤ 10 ∧
          100 ≤ (hsv.px i j).2.1 ∧ (hsv.px i j).2.1 ≤ 255 ∧
          100 ≤ (hsv.px i j).2.2 ∧ (hsv.px i j).2.2 ≤ 255)) ∧
      ((inRangeImg hsv red_lower2 red_upper2).px i j = true ↔
        (160 ≤ (hsv.px i j).1 ∧ (hsv.px i j).1 ≤ 180 ∧
          100 ≤ (hsv.px i j).2.1 ∧ (hsv.px i j).2.1 ≤ 255 ∧
          100 ≤ (hsv.px i j).2.2 ∧ (hsv.px i j).2.2 ≤ 255)) ∧
      ((inRangeImg hsv blue_lower blue_upper).px i j = true ↔
        (100 ≤ (hsv.px i j).1 ∧ (hsv.px i j).1 ≤ 130 ∧
          100 ≤ (hsv.px i j).2.1 ∧ (hsv.px i j).2.1 ≤ 255 ∧
          100 ≤ (hsv.px i j).2.2 ∧ (hsv.px i j).2.2 ≤ 255)) := by
  intro hsv i j
  refine ⟨?_, ?_, ?_⟩ <;>
    simp [inRangeImg, inRangePx, red_lower1, red_upper1, red_lower2,
      red_upper2, blue_lower, blue_upper, and_assoc]

/-- C10: every candidate emitted by the classifier has integer bounding
width at least 4 and height at least 11, and the aspect ratio in its
diagnostic record is `boundingRect.height / boundingRect.width` computed
on the integer rectangle fields. -/
theorem emitted_candidate_invariants :
    ∀ (cs : List Contour) (c : Contour) (rank : ℕ),
      c ∈ cs.filter (fun c => isValidLightBar c) →
      4 ≤ c.bRect.width ∧ 11 ≤ c.bRect.height ∧
        (candidateLog rank c).2.2.1 =
          (c.bRect.height : ℚ) / (c.bRect.width : ℚ) := by
  intro cs c rank hc
  have hv : isValidLightBar c = true := (List.mem_filter.mp hc).2
  simp only [isValidLightBar, Bool.and_eq_true, decide_eq_true_eq] at hv
  exact ⟨by omega, by omega, rfl⟩

/-- C10 witness: a concrete accepted contour satisfies the invariants. -/
theorem emitted_candidate_invariants_witness :
    (⟨[], ⟨0, 0, 10, 20⟩, 100⟩ : Contour) ∈
        ([⟨[], ⟨0, 0, 10, 20⟩, 100⟩] : List Contour).filter
          (fun c => isValidLightBar c) ∧
      4 ≤ (10 : ℤ) ∧ 11 ≤ (20 : ℤ) ∧
        (candidateLog 1 ⟨[], ⟨0, 0, 10, 20⟩, 100⟩).2.2.1 =
          ((20 : ℤ) : ℚ) / ((10 : ℤ) : ℚ) :=
  have hmem : (⟨[], ⟨0, 0, 10, 20⟩, 100⟩ : Contour) ∈
      ([⟨[], ⟨0, 0, 10, 20⟩, 100⟩] : List Contour).filter
        (fun c => isValidLightBar c) := by
    simp [isValidLightBar, aspectRatio]
    norm_num
  ⟨hmem, emitted_candidate_invariants
    [⟨[], ⟨0, 0, 10, 20⟩, 100⟩] ⟨[], ⟨0, 0, 10, 20⟩, 100⟩ 1 hmem⟩

/-- Mask union succeeds on dimension-matched operands. -/
theorem maskUnion_pos {A B : Mask} (h : A.rows = B.rows ∧ A.cols = B.cols) :
    maskUnion A B = some (orMask A B) :=
  if_pos h

/-- Mask union fails on dimension-mismatched operands. -/
theorem maskUnion_neg {A B : Mask} (h : ¬(A.rows = B.rows ∧ A.cols = B.cols)) :
    maskUnion A B = none :=
  if_neg h

/-- The filter stage on a non-empty mask: clone the image, filter the
contours in order, annotate the clone, return the annotated handle. -/
theorem filterLightBars_ok (rd : Img → Rect → Pixel → ℕ → Img)
    (td : Img → String → ℤ → ℤ → Pixel → Img) (h : Heap) (imageH : ℕ)
    (mask : Mask) (cs : List Contour) (hm : mask.isEmpty = false) :
    filterLightBars rd td h imageH mask cs =
      .ok ((h ++ [h.getD imageH dImg]).set h.length
          (annotateAll rd td (h.getD imageH dImg)
            (cs.filter fun c => isValidLightBar c)),
        h.length,
        (cs.filter fun c => isValidLightBar c).map fun c => c.bRect) := by
  rw [filterLightBars, if_neg (by simp [hm])]
  simp only [lightBarLoop_spec, heap_clone_get, List.nil_append]

/-- C5: mask union is commutative and associative (mismatched dimensions
fail identically on both sides), and the Color Mask Builder's final mask
is the union of the two red sub-masks with the blue mask: a pixel is
foreground iff it lies in at least one configured HSV range. -/
theorem mask_union_algebra :
    (∀ A B : Mask, maskUnion A B = maskUnion B A) ∧
    (∀ A B C : Mask, (maskUnion A B).bind (fun ab => maskUnion ab C) =
      (maskUnion B C).bind (fun bc => maskUnion A bc)) ∧
    (∀ (conv : Pixel → Pixel) (img : Img),
      maskUnion
          (orMask (inRangeImg (cvtAll conv img) red_lower1 red_upper1)
            (inRangeImg (cvtAll conv img) red_lower2 red_upper2))
          (inRangeImg (cvtAll conv img) blue_lower blue_upper) =
        some (buildColorMask conv img)) ∧
    (∀ (conv : Pixel → Pixel) (img : Img) (i j : ℕ),
      (buildColorMask conv img).px i j = true ↔
        (inRangePx red_lower1 red_upper1 (conv (img.px i j)) = true ∨
          inRangePx red_lower2 red_upper2 (conv (img.px i j)) = true ∨
          inRangePx blue_lower blue_upper (conv (img.px i j)) = true)) := by
  refine ⟨?_, ?_, ?_, ?_⟩
  · intro A B
    by_cases h1 : A.rows = B.rows ∧ A.cols = B.cols
    · rw [maskUnion_pos h1, maskUnion_pos ⟨h1.1.symm, h1.2.symm⟩]
      refine congrArg some (Mask.ext h1.1 h1.2 ?_)
      funext i j
      exact Bool.or_comm _ _
    · rw [maskUnion_neg h1,
        maskUnion_neg (fun h2 => h1 ⟨h2.1.symm, h2.2.symm⟩)]
  · intro A B C
    by_cases h1 : A.rows = B.rows ∧ A.cols = B.cols
    · rw [maskUnion_pos h1, Option.some_bind]
      by_cases h2 : B.rows = C.rows ∧ B.cols = C.cols
      · rw [maskUnion_pos h2, Option.some_bind,
          maskUnion_pos (show (orMask A B).rows = C.rows ∧
            (orMask A B).cols = C.cols from ⟨h1.1.trans h2.1, h1.2.trans h2.2⟩),
          maskUnion_pos (show A.rows = (orMask B C).rows ∧
            A.cols = (orMask B C).cols from h1)]
        refine congrArg some (Mask.ext rfl rfl ?_)
        funext i j
        exact Bool.or_assoc _ _ _
      · rw [maskUnion_neg h2, Option.none_bind,
          maskUnion_neg (show ¬((orMask A B).rows = C.rows ∧
            (orMask A B).cols = C.cols) from
              fun hc => h2 ⟨h1.1.symm.trans hc.1, h1.2.symm.trans hc.2⟩)]
    · rw [maskUnion_neg h1, Option.none_bind]
      by_cases h2 : B.rows = C.rows ∧ B.cols = C.cols
      · rw [maskUnion_pos h2, Option.some_bind,
          maskUnion_neg (show ¬(A.rows = (orMask B C).rows ∧
            A.cols = (orMask B C).cols) from h1)]
      · rw [maskUnion_neg h2, Option.none_bind]
  · intro conv img
    exact maskUnion_pos ⟨rfl, rfl⟩
  · intro conv img i j
    simp [buildColorMask, orMask, inRangeImg, cvtAll, or_assoc]

/-- C4: the Mask Refiner is one morphological open (erosion then
dilation) followed by one morphological close (dilation then erosion),
both with the fixed 3×3 square structuring element, and the mask stage
applies it exactly once to the color mask of a non-empty image. -/
theorem mask_refiner_one_open_one_close :
    (∀ m : Mask, maskRefine m =
      erodeM kernel3 (dilateM kernel3 (dilateM kernel3 (erodeM kernel3 m)))) ∧
    (∀ (conv : Pixel → Pixel) (img : Img), img.isEmpty = false →
      extractLightBars conv img = .ok (maskRefine (buildColorMask conv img))) := by
  refine ⟨fun m => rfl, fun conv img hne => ?_⟩
  rw [extractLightBars, if_neg (by simp [hne])]

/-- Concrete rasterizer fixtures for the witnesses: drawing collaborators
that keep the buffer, a 1×1 image, and a 1×1 all-foreground mask. -/
def wRd : Img → Rect → Pixel → ℕ → Img := fun b _ _ _ => b

/-- Concrete text rasterizer fixture for the witnesses. -/
def wTd : Img → String → ℤ → ℤ → Pixel → Img := fun b _ _ _ _ => b

/-- Concrete 1×1 image fixture for the witnesses. -/
def wImg : Img := ⟨1, 1, fun _ _ => (1, 2, 3)⟩

/-- Concrete 1×1 all-foreground mask fixture for the witnesses. -/
def wMask : Mask := ⟨1, 1, fun _ _ => true⟩

/-- C4 witness: the mask stage of a concrete non-empty image is exactly
one refinement of its color mask. -/
theorem mask_refiner_one_open_one_close_witness :
    wImg.isEmpty = false ∧
    extractLightBars id wImg = .ok (maskRefine (buildColorMask id wImg)) :=
  ⟨rfl, mask_refiner_one_open_one_close.2 id wImg rfl⟩

/-- C6: an empty image entering the mask stage and an empty mask
entering the filter stage each fail with the stage's invalid-input
error, and an empty input aborts the whole pipeline run immediately with
that error and no partial result. -/
theorem invalid_input_fatal :
    (∀ (conv : Pixel → Pixel) (img : Img), img.isEmpty = true →
      extractLightBars conv img = .error (.invalidInput "图像为空，无法提取灯条")) ∧
    (∀ rd td (h : Heap) (imageH : ℕ) (mask : Mask) (cs : List Contour),
      mask.isEmpty = true →
      filterLightBars rd td h imageH mask cs =
        .error (.invalidInput "二值化图像为空")) ∧
    (∀ (conv : Pixel → Pixel) rd td (fc : Mask → List Contour) (h : Heap)
      (imageH : ℕ), (h.getD imageH dImg).isEmpty = true →
      runPipeline conv rd td fc h imageH =
        .error (.invalidInput "图像为空，无法提取灯条")) := by
  refine ⟨?_, ?_, ?_⟩
  · intro conv img he
    rw [extractLightBars, if_pos he]
  · intro rd td h imageH mask cs he
    rw [filterLightBars, if_pos he]
  · intro conv rd td fc h imageH he
    rw [runPipeline, extractLightBars, if_pos he]
    rfl

/-- C6 witness: a 0×5 image and an empty heap both abort with the
invalid-input error, and an empty mask aborts the filter stage. -/
theorem invalid_input_fatal_witness :
    (⟨0, 5, fun _ _ => (0, 0, 0)⟩ : Img).isEmpty = true ∧
    extractLightBars id ⟨0, 5, fun _ _ => (0, 0, 0)⟩ =
      .error (.invalidInput "图像为空，无法提取灯条") ∧
    (⟨0, 0, fun _ _ => false⟩ : Mask).isEmpty = true ∧
    filterLightBars wRd wTd [] 0 ⟨0, 0, fun _ _ => false⟩ [] =
      .error (.invalidInput "二值化图像为空") ∧
    (([] : Heap).getD 0 dImg).isEmpty = true ∧
    runPipeline id wRd wTd (fun _ => []) [] 0 =
      .error (.invalidInput "图像为空，无法提取灯条") :=
  ⟨rfl, invalid_input_fatal.1 id _ rfl, rfl,
    invalid_input_fatal.2.1 wRd wTd [] 0 _ [] rfl, rfl,
    invalid_input_fatal.2.2 id wRd wTd (fun _ => []) [] 0 rfl⟩

/-- C2: a contour whose bounding box has zero width is rejected by the
classifier and causes no error: the filter stage still succeeds and its
output is exactly the output for the remaining contours.  (In the code
the ratio `height/0` is evaluated as an IEEE division, but the verdict
does not depend on its value because the `width > 3` conjunct already
fails; the rejection below is proved from that conjunct alone.) -/
theorem zero_width_contour_rejected :
    ∀ (c : Contour), c.bRect.width = 0 →
      isValidLightBar c = false ∧
      ∀ rd td (h : Heap) (imageH : ℕ) (mask : Mask) (cs : List Contour),
        mask.isEmpty = false →
        ∃ h2 visH, filterLightBars rd td h imageH mask (c :: cs) =
          .ok (h2, visH,
            (cs.filter fun x => isValidLightBar x).map fun x => x.bRect) := by
  intro c hw
  have hv : isValidLightBar c = false := by
    simp [isValidLightBar, hw]
  refine ⟨hv, fun rd td h imageH mask cs hm => ?_⟩
  have hok := filterLightBars_ok rd td h imageH mask (c :: cs) hm
  simp only [List.filter_cons, hv, Bool.false_eq_true, if_false] at hok
  exact ⟨_, _, hok⟩

/-- Concrete zero-width contour fixture for the witnesses. -/
def wZero : Contour := ⟨[], ⟨0, 0, 0, 20⟩, 100⟩

/-- C2 witness: a concrete zero-width contour is rejected without an
error by the filter stage. -/
theorem zero_width_contour_rejected_witness :
    wZero.bRect.width = 0 ∧
    isValidLightBar wZero = false ∧
    wMask.isEmpty = false ∧
    ∃ h2 visH, filterLightBars wRd wTd [wImg] 0 wMask [wZero] =
      .ok (h2, visH, []) :=
  have h := zero_width_contour_rejected wZero rfl
  ⟨rfl, h.1, rfl, h.2 wRd wTd [wImg] 0 wMask [] rfl⟩

/-- C3: the candidate sequence is the stable filter of the contour
sequence: the filter stage emits exactly the bounding boxes of the
accepted contours in input order, which is a subsequence of the input
contour order. -/
theorem candidate_order_stable :
    ∀ rd td (h : Heap) (imageH : ℕ) (mask : Mask) (cs : List Contour),
      mask.isEmpty = false →
      (∃ h2 visH, filterLightBars rd td h imageH mask cs =
        .ok (h2, visH,
          (cs.filter fun c => isValidLightBar c).map fun c => c.bRect)) ∧
      ((cs.filter fun c => isValidLightBar c).map fun c => c.bRect).Sublist
        (cs.map fun c => c.bRect) := by
  intro rd td h imageH mask cs hm
  exact ⟨⟨_, _, filterLightBars_ok rd td h imageH mask cs hm⟩,
    (List.filter_sublist cs).map fun c => c.bRect⟩

/-- Concrete accepted contour fixture for the witnesses. -/
def wGood : Contour := ⟨[], ⟨2, 7, 10, 20⟩, 100⟩

/-- C3 witness: on a concrete contour sequence the emitted rectangles
are the accepted subsequence in input order. -/
theorem candidate_order_stable_witness :
    wMask.isEmpty = false ∧
    (∃ h2 visH, filterLightBars wRd wTd [wImg] 0 wMask [wZero, wGood] =
      .ok (h2, visH,
        (([wZero, wGood].filter fun c => isValidLightBar c).map
          fun c => c.bRect))) ∧
    (([wZero, wGood].filter fun c => isValidLightBar c).map
      fun c => c.bRect).Sublist ([wZero, wGood].map fun c => c.bRect) :=
  ⟨rfl, candidate_order_stable wRd wTd [wImg] 0 wMask [wZero, wGood] rfl⟩

/-- C7: the caller's image is never mutated by the filter stage: the
stage clones the image into a fresh buffer, draws each accepted
candidate's rectangle and label on that clone in order, and the buffer
at the original handle after the run is the buffer before the run. -/
theorem original_image_never_mutated :
    ∀ rd td (h : Heap) (imageH : ℕ) (mask : Mask) (cs : List Contour),
      imageH < h.length → mask.isEmpty = false →
      ∃ h2 rects, filterLightBars rd td h imageH mask cs =
        .ok (h2, h.length, rects) ∧
        h2.getD imageH dImg = h.getD imageH dImg ∧
        h2.getD h.length dImg = annotateAll rd td (h.getD imageH dImg)
          (cs.filter fun c => isValidLightBar c) := by
  intro rd td h imageH mask cs hi hm
  exact ⟨_, _, filterLightBars_ok rd td h imageH mask cs hm,
    heap_clone_set_preserves h _ _ imageH hi,
    heap_clone_set_get h _ _⟩

/-- C7 witness: for a concrete run the original buffer is unchanged and
the clone carries the annotations. -/
theorem original_image_never_mutated_witness :
    0 < ([wImg] : Heap).length ∧
    wMask.isEmpty = false ∧
    ∃ h2 rects, filterLightBars wRd wTd [wImg] 0 wMask [wGood] =
      .ok (h2, 1, rects) ∧
      h2.getD 0 dImg = ([wImg] : Heap).getD 0 dImg ∧
      h2.getD 1 dImg = annotateAll wRd wTd (([wImg] : Heap).getD 0 dImg)
        ([wGood].filter fun c => isValidLightBar c) :=
  ⟨by decide, rfl,
    original_image_never_mutated wRd wTd [wImg] 0 wMask [wGood]
      (by decide) rfl⟩

/-- C8: when no contour qualifies, the filter stage succeeds with an
empty candidate list and the annotated output buffer is an unmodified
copy of the original image. -/
theorem annotator_empty_candidates_copy :
    ∀ rd td (h : Heap) (imageH : ℕ) (mask : Mask) (cs : List Contour),
      mask.isEmpty = false → (∀ c ∈ cs, isValidLightBar c = false) →
      ∃ h2, filterLightBars rd td h imageH mask cs = .ok (h2, h.length, []) ∧
        h2.getD h.length dImg = h.getD imageH dImg := by
  intro rd td h imageH mask cs hm hno
  have hfil : cs.filter (fun c => isValidLightBar c) = [] :=
    List.filter_eq_nil_iff.mpr (fun c hc => by simp [hno c hc])
  refine ⟨(h ++ [h.getD imageH dImg]).set h.length (h.getD imageH dImg), ?_,
    heap_clone_set_get h _ _⟩
  rw [filterLightBars_ok rd td h imageH mask cs hm, hfil]
  simp [annotateAll]

/-- C8 witness: a run whose only contour is rejected returns the
unmodified copy and no error. -/
theorem annotator_empty_candidates_copy_witness :
    wMask.isEmpty = false ∧
    (∀ c ∈ [wZero], isValidLightBar c = false) ∧
    ∃ h2, filterLightBars wRd wTd [wImg] 0 wMask [wZero] =
      .ok (h2, 1, []) ∧
      h2.getD 1 dImg = ([wImg] : Heap).getD 0 dImg :=
  have hno : ∀ c ∈ [wZero], isValidLightBar c = false := by
    intro c hc
    rw [List.mem_singleton.mp hc]
    exact (zero_width_contour_rejected wZero rfl).1
  ⟨rfl, hno, annotator_empty_candidates_copy wRd wTd [wImg] 0 wMask [wZero]
    rfl hno⟩
